import Mathlib

/-!
Verification development for the tidba operator console.

This file shallowly embeds the two core subsystems of the repository:

* the interactive dispatch engine of `cmd/readline.go` (`Run`,
  `splitStringWithDelimiter`, `skipComments`), and
* the session-termination engine of `model/kill/query.go`
  (`GenerateKillSessionSqlBySqlDigest`, `GenerateKillSessionSqlByUsername`).

Strings are modelled as `List Char`; Go standard-library helpers
(`strings.TrimSpace`, `strings.Fields`, `strings.Index`, ...) are embedded
as executable Lean functions, faithful to their behaviour on the ASCII
inputs the console handles.  External collaborators (the cobra command
tree, shellwords parsing, the readline history file, the database driver)
are modelled as oracle parameters, mirroring §6 of the specification.
-/

namespace Tidba

/-- Go `unicode.IsSpace` restricted to the ASCII white-space characters,
which is what `strings.TrimSpace` and `strings.Fields` test on the
console's input alphabet. -/
def isSpace (c : Char) : Bool :=
  c = ' ' || c = '\t' || c = '\n' || c = Char.ofNat 11 || c = Char.ofNat 12 || c = '\r'

/-- Go `strings.TrimSpace`: drop white space from both ends. -/
def trimSpace (s : List Char) : List Char :=
  ((s.dropWhile isSpace).reverse.dropWhile isSpace).reverse

/-- Accumulator-based worker for `fields`. -/
def fieldsAux : List Char → List Char → List (List Char)
  | [], acc => if acc.isEmpty then [] else [acc.reverse]
  | c :: rest, acc =>
    if isSpace c then
      if acc.isEmpty then fieldsAux rest [] else acc.reverse :: fieldsAux rest []
    else fieldsAux rest (c :: acc)

/-- Go `strings.Fields`: split around runs of white space, dropping empty
segments. -/
def fields (s : List Char) : List (List Char) := fieldsAux s []

/-- Go `strings.Index` for a non-empty pattern: index of the first
occurrence of `pat` as a contiguous substring, `none` when absent. -/
def indexOf (pat : List Char) : List Char → Option Nat
  | [] => if pat.isEmpty then some 0 else none
  | c :: rest =>
    if pat.isPrefixOf (c :: rest) then some 0
    else (indexOf pat rest).map (· + 1)

/-- Whether `pat` occurs as a contiguous substring (Go
`strings.Contains`). -/
def containsSub (pat s : List Char) : Bool := (indexOf pat s).isSome

/-- Go `strings.HasSuffix`. -/
def hasSuffix (suffix s : List Char) : Bool :=
  suffix.reverse.isPrefixOf s.reverse

/-- ASCII upper-casing, the folding used by Go `strings.EqualFold` on the
console's command and verb names. -/
def asciiUpper (c : Char) : Char :=
  if 'a' ≤ c && c ≤ 'z' then Char.ofNat (c.toNat - 32) else c

/-- Go `strings.EqualFold` on ASCII strings. -/
def equalFold (a b : List Char) : Bool :=
  a.map asciiUpper = b.map asciiUpper

/-- Modelled from the spec: `stringutil.IsContainStringIgnoreCase`
(the helper lives outside the provided sources); per §4.1 it decides
whether `s` matches one of the names in `xs` ignoring case. -/
def isContain (s : List Char) (xs : List (List Char)) : Bool :=
  xs.any (equalFold s)

/-- Go `strings.Split(input, "\n")`; note that splitting the empty string
yields one empty segment, exactly as in Go. -/
def splitOnNl : List Char → List (List Char)
  | [] => [[]]
  | c :: rest =>
    if c = '\n' then [] :: splitOnNl rest
    else
      match splitOnNl rest with
      | [] => [[c]]
      | h :: t => (c :: h) :: t

/-- Go `strings.Join(xs, sep)`. -/
def joinWith (sep : List Char) : List (List Char) → List Char
  | [] => []
  | [x] => x
  | x :: y :: rest => x ++ sep ++ joinWith sep (y :: rest)

/-- Go `strings.Trim(s, ";")`: drop `';'` characters from both ends. -/
def trimSemis (s : List Char) : List Char :=
  ((s.dropWhile (· = ';')).reverse.dropWhile (· = ';')).reverse

/-- The characters of a string that are not white space; two strings are
"equal modulo whitespace" when these agree. -/
def stripWS (s : List Char) : List Char := s.filter (fun c => !isSpace c)

/-- The allow-listed verbs of `cmd/readline.go`
(`allowedQueryCommands`). -/
def selectCmd : List Char := "SELECT".data
def showCmd : List Char := "SHOW".data
def useCmd : List Char := "USE".data
def explainCmd : List Char := "EXPLAIN".data
def allowedQueryCommands : List (List Char) :=
  [selectCmd, showCmd, useCmd, explainCmd]

/-! ## The delimiter splitter (`splitStringWithDelimiter`)

The Go function matches the regular expression `(;|\G)` left to right with
`FindAllStringIndex` and cuts the input at every match.  The scan below
reproduces the leftmost-first matching of that alternation: at each
position a `;` or a literal `\G` is a match, anything else is carried into
the pending group value. -/

/-- A statement group: `Group` of `cmd/readline.go`.  `Delimiter` is the
matched separator text (`";"`, `"\G"`, or `""` for the trailing
remainder). -/
structure Group where
  Value : List Char
  Delimiter : List Char
  deriving DecidableEq, Repr

/-- The scan underlying `splitStringWithDelimiter`: cut at every `;` or
`\G`, returning the delimiter-closed groups and the text after the last
match (`acc` holds the pending value, reversed). -/
def splitCore : List Char → List Char → List Group × List Char
  | [], acc => ([], acc.reverse)
  | ';' :: rest, acc =>
    let p := splitCore rest []
    (⟨acc.reverse, [';']⟩ :: p.1, p.2)
  | '\\' :: 'G' :: rest, acc =>
    let p := splitCore rest []
    (⟨acc.reverse, ['\\', 'G']⟩ :: p.1, p.2)
  | c :: rest, acc => splitCore rest (c :: acc)

/-- `splitStringWithDelimiter` of `cmd/readline.go`: no match returns
`(nil, false)`; otherwise the delimiter-closed groups, plus one extra
group holding the trimmed text after the last delimiter (empty
delimiter) when that text is not all white space. -/
def splitStringWithDelimiter (input : List Char) : List Group × Bool :=
  let p := splitCore input []
  if p.1.isEmpty then ([], false)
  else
    let lastValue := trimSpace p.2
    if lastValue.isEmpty then (p.1, true)
    else (p.1 ++ [⟨lastValue, []⟩], true)

/-- Number of occurrences of `;` or `\G` in the input, counted by the same
left-to-right scan the regular expression performs. -/
def countDelims : List Char → Nat
  | [] => 0
  | ';' :: rest => countDelims rest + 1
  | '\\' :: 'G' :: rest => countDelims rest + 1
  | _ :: rest => countDelims rest

/-- Concatenation of each group's text immediately followed by its own
terminator tag. -/
def joinGroups (gs : List Group) : List Char :=
  (gs.map (fun g => g.Value ++ g.Delimiter)).flatten

/-! ## The comment stripper (`skipComments`)

The Go function splits the input on `"\n"`, trims each line, handles a
pending block comment, cuts at the first `--`, handles `/*` (consulting
the first `*/` of the already-`--`-cut line), and appends the surviving
text of every line to one builder with no separator; the final result is
trimmed once more. -/

def dashDash : List Char := "--".data
def blockOpen : List Char := "/*".data
def blockClose : List Char := "*/".data

/-- The part of `skipComments`'s per-line body that runs once any pending
block comment has been closed: cut at `--`, then handle `/*` on the cut
line (Go searches the closing `*/` from the start of that same line).
Returns the kept text and whether a block comment is left open. -/
def skipRest (line : List Char) : List Char × Bool :=
  let line1 :=
    match indexOf dashDash line with
    | some idx => line.take idx
    | none => line
  match indexOf blockOpen line1 with
  | some idx =>
    match indexOf blockClose line1 with
    | none => (line1.take idx, true)
    | some endIdx => (line1.take idx ++ line1.drop (endIdx + 2), false)
  | none => (line1, false)

/-- One iteration of `skipComments`'s loop: trim the raw line; while
inside a block comment, drop the line unless it closes the comment. -/
def skipLine (inBlock : Bool) (rawLine : List Char) : List Char × Bool :=
  let line := trimSpace rawLine
  if inBlock then
    match indexOf blockClose line with
    | none => ([], true)
    | some idx => skipRest (line.drop (idx + 2))
  else skipRest line

/-- The builder loop of `skipComments` over the split lines. -/
def skipCore : Bool → List (List Char) → List Char
  | _, [] => []
  | inB, l :: rest =>
    let p := skipLine inB l
    p.1 ++ skipCore p.2 rest

/-- `skipComments` of `cmd/readline.go`. -/
def skipComments (input : List Char) : List Char :=
  trimSpace (skipCore false (splitOnNl input))

/-- A statement "contains no comments" in the sense of the specification:
no `--` line comment and no `/*` block comment opener occurs in it. -/
def commentFree (s : List Char) : Bool :=
  !containsSub dashDash s && !containsSub blockOpen s

/-- No newline occurs in the statement (true of every statement the
dispatch loop builds, since buffered lines are trimmed and joined with
single spaces). -/
def newlineFree (s : List Char) : Bool := s.all (fun c => c ≠ '\n')

/-! ## The interactive dispatch engine (`CommandLine.Run`)

One iteration of the read-eval loop of `cmd/readline.go` is embedded as a
function of the mutable state it touches.  The external collaborators —
the cobra command tree (`rootCmd.Execute`), `shellwords.Parse`,
`readline.ClearScreen`, `SaveHistory`, the connection registry and the
two database operations — are oracles bundled in `Env`.  Observable
actions are recorded as events so that the claims about history writes,
connection traffic and crash behaviour can be stated. -/

def exitWord : List Char := "exit".data
def quitWord : List Char := "quit".data
def clearWord : List Char := "clear".data
def helpWord : List Char := "help".data
def semiStr : List Char := ";".data
def slashGStr : List Char := "\\G".data

/-- Oracles for the external collaborators of the dispatch loop. -/
structure Env where
  /-- Names of the cobra subcommands (`cmds` in `Run`). -/
  cmds : List (List Char)
  /-- Whether `shellwords.Parse` succeeds on a line. -/
  parseOk : List Char → Bool
  /-- Whether `readliner.SaveHistory` succeeds on a text. -/
  saveOk : List Char → Bool
  /-- Whether `readline.ClearScreen` succeeds. -/
  clearOk : Bool
  /-- Whether `database.Connector.GetDatabase(activeCluster)` succeeds. -/
  getDbOk : Bool
  /-- Whether `db.ExecContext` succeeds on a statement (the `USE` path). -/
  execOk : List Char → Bool
  /-- Whether `db.GeneralQuery` succeeds on a statement. -/
  queryOk : List Char → Bool
  /-- Whether the query-result formatter succeeds. -/
  fmtOk : Bool

/-- The mutable state of one `CommandLine` the loop body reads and
writes: the input buffer and the session context. -/
structure LoopState where
  inputBuffer : List (List Char)
  activeCluster : List Char
  activeDb : List Char
  connInit : Bool
  deriving DecidableEq, Repr

/-- Observable events of one loop iteration. -/
inductive Ev where
  /-- `readliner.SaveHistory(text)` was called. -/
  | savedHistory (text : List Char)
  /-- `readline.ClearScreen` succeeded. -/
  | clearedScreen
  /-- the command tree was executed with `help`. -/
  | ranHelp
  /-- the command tree was executed with the shell-parsed line. -/
  | ranCommand (line : List Char)
  /-- the empty-cluster error was printed and the buffer discarded. -/
  | printedNoCluster
  /-- `ERROR: No query specified` was printed for an empty group. -/
  | printedNoQuery
  /-- the security-allow-list rejection was printed for a verb. -/
  | rejectedVerb (verb : List Char)
  /-- `db.ExecContext(stmt)` was called (a statement reached the connection). -/
  | execSql (stmt : List Char)
  /-- `db.GeneralQuery(stmt)` was called (a statement reached the connection). -/
  | querySql (stmt : List Char)
  /-- the execute/query failure message was printed for a statement. -/
  | printedQueryError (stmt : List Char)
  /-- the result-format failure message was printed. -/
  | printedFmtError
  /-- `SetDatabaseName` ran and `Database changed` was printed. -/
  | databaseChanged (db : List Char)
  deriving DecidableEq, Repr

/-- Result of one loop iteration: continue with a new state, exit the
process (`exit`/`quit`), return a fatal error from `Run`, or crash with a
runtime panic. -/
inductive Outcome where
  | next (st : LoopState) (evs : List Ev)
  | exited (evs : List Ev)
  | fatal (evs : List Ev)
  | panicked (evs : List Ev)
  deriving DecidableEq, Repr

/-- The events of an outcome. -/
def Outcome.events : Outcome → List Ev
  | .next _ evs => evs
  | .exited evs => evs
  | .fatal evs => evs
  | .panicked evs => evs

/-- Whether the iteration ended in a runtime panic. -/
def Outcome.isPanicked : Outcome → Bool
  | .panicked _ => true
  | _ => false

/-- Result of dispatching the statement groups of one buffer flush. -/
inductive GroupsRes where
  | done (st : LoopState) (evs : List Ev)
  | panicked (evs : List Ev)
  deriving DecidableEq, Repr

/-- Prefix some already-emitted events onto a dispatch result. -/
def GroupsRes.prepend (pre : List Ev) : GroupsRes → GroupsRes
  | .done st evs => .done st (pre ++ evs)
  | .panicked evs => .panicked (pre ++ evs)

/-- The events of a group-dispatch result. -/
def GroupsRes.events : GroupsRes → List Ev
  | .done _ evs => evs
  | .panicked evs => evs

/-- The `for _, g := range groups` loop of `Run`: skip empty groups with a
notice, strip comments, take the leading token as the verb
(`queryCmd[0]` panics when comment stripping left nothing), run `USE`
through `ExecContext` (`queryCmd[1]` panics when `USE` has no argument),
run the other allow-listed verbs through `GeneralQuery`, and reject
everything else; every failure prints, clears the buffer and continues
with the next group. -/
def processGroups (env : Env) (st : LoopState) : List Group → GroupsRes
  | [] => .done st []
  | g :: rest =>
    if g.Value = [] then
      (processGroups env st rest).prepend [Ev.printedNoQuery]
    else
      match fields (skipComments g.Value) with
      | [] => .panicked []
      | queryType :: args =>
        if equalFold queryType useCmd then
          if env.execOk g.Value then
            match args with
            | [] => .panicked [Ev.execSql g.Value]
            | arg :: _ =>
              let newDb := trimSemis arg
              (processGroups env { st with activeDb := newDb, inputBuffer := [] } rest).prepend
                [Ev.execSql g.Value, Ev.databaseChanged newDb]
          else
            (processGroups env { st with inputBuffer := [] } rest).prepend
              [Ev.execSql g.Value, Ev.printedQueryError g.Value]
        else if equalFold queryType selectCmd || equalFold queryType showCmd
            || equalFold queryType explainCmd then
          if env.queryOk g.Value then
            if env.fmtOk then
              (processGroups env st rest).prepend [Ev.querySql g.Value]
            else
              (processGroups env { st with inputBuffer := [] } rest).prepend
                [Ev.querySql g.Value, Ev.printedFmtError]
          else
            (processGroups env { st with inputBuffer := [] } rest).prepend
              [Ev.querySql g.Value, Ev.printedQueryError g.Value]
        else
          (processGroups env st rest).prepend [Ev.rejectedVerb queryType]

/-- The flush path of `Run`, entered when the just-appended line ends in
`;` or `\G`: require an active cluster (else print and discard the
buffer with no history write), write the joined buffer to history, split
it, lazily initialise the connection, dispatch the groups, and clear the
buffer. -/
def dispatchBuffer (env : Env) (st : LoopState) (buf : List (List Char)) : Outcome :=
  if st.activeCluster.isEmpty then
    .next { st with inputBuffer := [] } [Ev.printedNoCluster]
  else
    let fullInput := joinWith [' '] buf
    if env.saveOk fullInput then
      let p := splitStringWithDelimiter fullInput
      if p.2 = false then
        .next { st with inputBuffer := buf } [Ev.savedHistory fullInput]
      else
        if st.connInit || env.getDbOk then
          match processGroups env { st with inputBuffer := buf, connInit := true } p.1 with
          | .done st2 evs => .next { st2 with inputBuffer := [] } (Ev.savedHistory fullInput :: evs)
          | .panicked evs => .panicked (Ev.savedHistory fullInput :: evs)
        else .fatal [Ev.savedHistory fullInput]
    else .fatal [Ev.savedHistory fullInput]

/-- One iteration of the `for` loop of `CommandLine.Run` after a
successful `Readline`: trim; skip empty lines; `exit`/`quit` terminate;
`clear` and `help` run and are written to history; a first token that is
a known command name, or is no allow-listed verb, runs the whole line as
a command (while the buffer is empty); otherwise the line is buffered and
a terminator triggers the flush path. -/
def handleLine (env : Env) (st : LoopState) (raw : List Char) : Outcome :=
  let line := trimSpace raw
  if line.isEmpty then .next st []
  else if line = exitWord || line = quitWord then .exited []
  else if line = clearWord then
    if env.clearOk then
      if env.saveOk line then .next st [Ev.clearedScreen, Ev.savedHistory line]
      else .fatal [Ev.clearedScreen, Ev.savedHistory line]
    else .fatal []
  else if line = helpWord then
    if env.saveOk line then .next st [Ev.ranHelp, Ev.savedHistory line]
    else .fatal [Ev.ranHelp, Ev.savedHistory line]
  else
    match fields line with
    | [] => .panicked []
    | tok :: _ =>
      if (isContain tok env.cmds && st.inputBuffer.isEmpty)
          || (!isContain tok allowedQueryCommands && st.inputBuffer.isEmpty) then
        if env.parseOk line then
          if env.saveOk line then .next st [Ev.ranCommand line, Ev.savedHistory line]
          else .fatal [Ev.ranCommand line, Ev.savedHistory line]
        else .fatal []
      else
        let buf := st.inputBuffer ++ [line]
        if hasSuffix semiStr line || hasSuffix slashGStr line then
          dispatchBuffer env st buf
        else .next { st with inputBuffer := buf } []

/-- Whether an event is a call of the history-append operation. -/
def isSavedEv : Ev → Bool
  | .savedHistory _ => true
  | _ => false

/-- Whether an event sends a statement to the connection. -/
def isConnEv : Ev → Bool
  | .execSql _ => true
  | .querySql _ => true
  | _ => false

/-- Whether the history-append operation was called during the
iteration. -/
def historyCalled (o : Outcome) : Bool := o.events.any isSavedEv

/-- No statement of the iteration reached the connection. -/
def noConnTraffic (o : Outcome) : Bool := o.events.all (fun e => !isConnEv e)

/-- When exactly one loop iteration calls the history-append operation
(the characterisation proved equal to the model): a successful `clear`, a
`help`, a command line whose shell-word parse succeeds, or a buffer flush
with an active cluster; empty lines, `exit`/`quit`, parse failures,
still-incomplete buffers and flushes without an active cluster append
nothing. -/
def savesHistory (env : Env) (st : LoopState) (raw : List Char) : Bool :=
  let line := trimSpace raw
  if line.isEmpty then false
  else if line = exitWord || line = quitWord then false
  else if line = clearWord then env.clearOk
  else if line = helpWord then true
  else
    match fields line with
    | [] => false
    | tok :: _ =>
      if (isContain tok env.cmds && st.inputBuffer.isEmpty)
          || (!isContain tok allowedQueryCommands && st.inputBuffer.isEmpty) then
        env.parseOk line
      else if hasSuffix semiStr line || hasSuffix slashGStr line then
        !st.activeCluster.isEmpty
      else false

/-- A dispatch trace "stops at the first failure" when no event follows a
printed execute/query failure (what C3 asserts of execution failures). -/
def stopsAtFirstFailure : List Ev → Bool
  | [] => true
  | Ev.printedQueryError _ :: rest => rest.isEmpty
  | _ :: rest => stopsAtFirstFailure rest

/-! ## The session-termination engine (`model/kill/query.go`)

`GenerateKillSessionSqlBySqlDigest` and `GenerateKillSessionSqlByUsername`
share one skeleton: connect, run the `enable-global-kill` capability
query, build the discovery query, and spawn a goroutine that loops
{discover → kill every discovered session → sleep}.  A discovery or kill
failure inside the goroutine logs the error and calls `cancel()`; the
enclosing function then merely observes `ctx.Done()`, logs, and
`return nil`.  The database's behaviour is scripted per round; exhausting
the script models the external cancellation (signal or deadline) that
otherwise ends the unbounded loop.  The concurrent kills of one round are
serialised in discovery order (one admissible schedule of the bounded
worker pool); `errgroup` first-error-wins appears as the round stopping
at its first failed kill. -/

/-- Error values of the engine, as the caller can distinguish them. -/
inductive DbErr where
  /-- `database.Connector.GetDatabase` failed. -/
  | connFailed
  /-- the capability query itself failed. -/
  | capabilityQueryFailed
  /-- zero rows: the `require version >= v6.1.0 and config
  [enable-global-kill = true]` precondition error. -/
  | capabilityNotMet
  /-- a round's discovery query failed. -/
  | discoveryFailed
  /-- a kill statement failed. -/
  | killFailed
  deriving DecidableEq, Repr

/-- Scripted behaviour of the database for one round: the discovery
query's result (rows are the `inst` values `instance:port:ID`), and which
rows' kill statements succeed. -/
structure RoundSpec where
  discovery : Except DbErr (List (List Char))
  killOk : List Char → Bool

/-- Scripted behaviour of the database for one invocation. -/
structure Script where
  /-- whether `GetDatabase(clusterName)` succeeds. -/
  getDbOk : Bool
  /-- result of the `enable-global-kill` capability query. -/
  capability : Except DbErr (List (List Char))
  /-- behaviour of the successive rounds; the end of the list models the
  external cancellation that stops the otherwise unbounded loop. -/
  rounds : List RoundSpec

/-- Observable events of the engine's goroutine. -/
inductive KEv where
  /-- a round's discovery query returned this many sessions. -/
  | discovered (round : Nat) (count : Nat)
  /-- the `completed round ... session counts [..]` log of a round that
  discovered zero sessions: it reports the current counter value. -/
  | reportedEmptyRound (round : Nat) (counter : Nat)
  /-- `sessionCounts.Store(counts)` ran for a non-empty round. -/
  | storedCounter (round : Nat) (value : Nat)
  /-- a kill statement for this `inst` row succeeded; the counter was
  atomically decremented to `counterAfter`. -/
  | killed (round : Nat) (inst : List Char) (counterAfter : Nat)
  /-- a kill statement for this `inst` row failed (logged; cancels). -/
  | killFailed (round : Nat) (inst : List Char)
  /-- a round's discovery query failed (logged; cancels). -/
  | discoveryFailed (round : Nat)
  /-- the `completed round ... session counts [..]` log of a non-empty
  round whose kills all succeeded. -/
  | reportedRound (round : Nat) (counter : Nat)
  deriving DecidableEq, Repr

/-- The kill loop of one round, serialised in discovery order: each
successful kill decrements the shared counter; the first failure stops
the round (`errgroup` cancellation) and is reported by the `false`
flag. -/
def runKills (round : Nat) (counter : Nat) (killOk : List Char → Bool) :
    List (List Char) → List KEv × Nat × Bool
  | [] => ([], counter, true)
  | r :: rest =>
    if killOk r then
      let c1 := counter - 1
      let p := runKills round c1 killOk rest
      (KEv.killed round r c1 :: p.1, p.2)
    else ([KEv.killFailed round r], counter, false)

/-- The goroutine's round loop.  Returns the events, the final counter
value, and whether the loop stopped because of a database error (as
opposed to the scripted external cancellation). -/
def runRounds : List RoundSpec → Nat → Nat → List KEv × Nat × Bool
  | [], _, counter => ([], counter, false)
  | rs :: rest, round, counter =>
    match rs.discovery with
    | .error _ => ([KEv.discoveryFailed round], counter, true)
    | .ok rows =>
      let counts := rows.length
      if counts = 0 then
        let p := runRounds rest (round + 1) counter
        (KEv.discovered round 0 :: KEv.reportedEmptyRound round counter :: p.1, p.2)
      else
        let k := runKills round counts rs.killOk rows
        if k.2.2 then
          let p := runRounds rest (round + 1) k.2.1
          (KEv.discovered round counts :: KEv.storedCounter round counts ::
            (k.1 ++ KEv.reportedRound round k.2.1 :: p.1), p.2)
        else
          (KEv.discovered round counts :: KEv.storedCounter round counts :: k.1,
            k.2.1, true)

/-- The shared skeleton of the two generate-kill functions: the
capability precondition gates the loop; once the goroutine is spawned the
function's own result is `ok ()` — the `select` at the bottom of the Go
function logs the signal/timeout/cancel cause and executes `return nil`
on every path. -/
def runKillEngine (s : Script) : Except DbErr Unit × List KEv :=
  if !s.getDbOk then (.error .connFailed, [])
  else
    match s.capability with
    | .error e => (.error e, [])
    | .ok res =>
      if res.length = 0 then (.error .capabilityNotMet, [])
      else
        let p := runRounds s.rounds 0 0
        (.ok (), p.1)

/-- `GenerateKillSessionSqlBySqlDigest`: the digest predicate only shapes
the discovery query's text; the control structure is `runKillEngine`. -/
def GenerateKillSessionSqlBySqlDigest (s : Script)
    (_sqlDigests : List (List Char)) : Except DbErr Unit × List KEv :=
  runKillEngine s

/-- `GenerateKillSessionSqlByUsername`: the username predicate only shapes
the discovery query's text; the control structure is `runKillEngine`. -/
def GenerateKillSessionSqlByUsername (s : Script)
    (_usernames : List (List Char)) : Except DbErr Unit × List KEv :=
  runKillEngine s

/-- Whether a kill-engine event is one of the error events. -/
def isKErrEv : KEv → Bool
  | .killFailed _ _ => true
  | .discoveryFailed _ => true
  | _ => false

/-- An error event, if present, is the last event of the trace: the
engine stops at its first database error. -/
def errorsTerminal : List KEv → Bool
  | [] => true
  | e :: rest => if isKErrEv e then rest.isEmpty else errorsTerminal rest

/-- The counter values reported by the zero-discovery rounds of a trace,
in order. -/
def reportsOfZeroRounds (evs : List KEv) : List Nat :=
  evs.filterMap fun e =>
    match e with
    | KEv.reportedEmptyRound _ c => some c
    | _ => none

/-- Modelled from the claim's reading of the counter: the residual value
carried across rounds.  A zero-discovery round reports the residual
unchanged; a round with `n` sessions resets the residual to `n` minus its
number of successful kills (the kills preceding the first failure), and
only an all-successful round reaches the next round; a discovery failure
or kill failure ends the engine. -/
def residualReports (residual : Nat) : List RoundSpec → List Nat
  | [] => []
  | rs :: rest =>
    match rs.discovery with
    | .error _ => []
    | .ok rows =>
      if rows.length = 0 then residual :: residualReports residual rest
      else
        let succ := (rows.takeWhile rs.killOk).length
        if succ = rows.length then residualReports (rows.length - succ) rest
        else []

/-! ## Concrete fixtures

Closed inputs used by the counterexamples and witnesses below. -/

/-- A plausible set of cobra subcommand names; the claims below only use
that `select`-like verbs are not among them, which holds of the actual
command tree. -/
def cmdsFix : List (List Char) :=
  ["sql".data, "kill".data, "login".data, "logout".data, "clear".data, "table".data]

/-- All-success oracles. -/
def envA : Env :=
  { cmds := cmdsFix,
    parseOk := fun _ => true, saveOk := fun _ => true, clearOk := true,
    getDbOk := true, execOk := fun _ => true, queryOk := fun _ => true,
    fmtOk := true }

def stmtS1 : List Char := "select 1".data
def stmtS2 : List Char := "select 2".data

/-- Oracles where the query `select 1` fails and everything else
succeeds. -/
def envC3 : Env := { envA with queryOk := fun s => !(s = stmtS1) }

/-- State logged in to cluster `c1` with an initialised connection and an
empty buffer. -/
def stActive : LoopState :=
  { inputBuffer := [], activeCluster := "c1".data, activeDb := [], connInit := true }

/-- State with no active cluster and an empty buffer. -/
def stNoCluster : LoopState :=
  { inputBuffer := [], activeCluster := [], activeDb := [], connInit := false }

def lineC2 : List Char := "select 1;/* x */;".data
def lineC3 : List Char := "select 1;select 2;".data
def lineC5 : List Char := "select 1;".data
def lineC6 : List Char := "kill all".data
def cexC8 : List Char := "a-\n-b".data
def wsC8 : List Char := " select 1".data
def inputAB : List Char := "a;b".data
def inputABC : List Char := "abc".data
def inputWit : List Char := "select 1; show x\\G  ".data

/-- The two statement groups of the flush `select 1;select 2;`. -/
def grpA : Group := ⟨stmtS1, [';']⟩
def grpB : Group := ⟨stmtS2, [';']⟩

/-- The comment-only statement text `/* x */`. -/
def grpC2 : List Char := "/* x */".data

/-- An `inst` row `host:4000:5` as the discovery query returns it. -/
def instRow : List Char := "h:4000:5".data
def instRow2 : List Char := "h:4000:6".data

/-- Script whose first round's discovery query fails. -/
def scrDiscFail : Script :=
  { getDbOk := true, capability := .ok [['x']],
    rounds := [⟨.error .discoveryFailed, fun _ => true⟩] }

/-- Script whose first round discovers two sessions and whose second kill
fails. -/
def scrKillFail : Script :=
  { getDbOk := true, capability := .ok [['x']],
    rounds := [⟨.ok [instRow, instRow2], fun r => !(r = instRow2)⟩] }

/-- Script for the capability-precondition claim: the feature-flag query
returns zero rows. -/
def scrNoCap : Script :=
  { getDbOk := true, capability := .ok [], rounds := [⟨.ok [instRow], fun _ => true⟩] }

/-- Script exercising the counter residual: a non-empty round whose kills
all succeed, followed by two zero-discovery rounds. -/
def scrResid : Script :=
  { getDbOk := true, capability := .ok [['x']],
    rounds :=
      [⟨.ok [instRow, instRow2], fun _ => true⟩,
       ⟨.ok [], fun _ => true⟩, ⟨.ok [], fun _ => true⟩] }

end Tidba

/-! # Theorems -/

namespace Tidba

/-! ## The delimiter splitter: structure and round-trip (C4, C7) -/

/-- The scan reconstructs its input: the group values and delimiters, in
order, followed by the remainder after the last match. -/
theorem joinGroups_splitCore (s acc : List Char) :
    joinGroups (splitCore s acc).1 ++ (splitCore s acc).2 = acc.reverse ++ s := by
  induction s, acc using splitCore.induct with
  | case1 acc => simp [splitCore, joinGroups]
  | case2 rest acc ih => simp_all [splitCore, joinGroups]
  | case3 rest acc ih => simp_all [splitCore, joinGroups]
  | case4 c rest acc h1 h2 ih => simp_all [splitCore, joinGroups]

/-- The scan produces exactly one group per delimiter occurrence. -/
theorem splitCore_length (s acc : List Char) :
    (splitCore s acc).1.length = countDelims s := by
  induction s, acc using splitCore.induct with
  | case1 acc => simp [splitCore, countDelims]
  | case2 rest acc ih => simp_all [splitCore, countDelims]
  | case3 rest acc ih => simp_all [splitCore, countDelims]
  | case4 c rest acc h1 h2 ih =>
    rw [splitCore, countDelims] <;> first | exact ih | exact h1 | exact h2

/-- Every group of the scan carries the delimiter that closed it. -/
theorem splitCore_delims (s acc : List Char) :
    ∀ g ∈ (splitCore s acc).1, g.Delimiter = [';'] ∨ g.Delimiter = ['\\', 'G'] := by
  induction s, acc using splitCore.induct with
  | case1 acc => simp [splitCore]
  | case2 rest acc ih => simp_all [splitCore]
  | case3 rest acc ih => simp_all [splitCore]
  | case4 c rest acc h1 h2 ih => simp_all [splitCore]

/-- `joinGroups` distributes over append. -/
theorem joinGroups_append (a b : List Group) :
    joinGroups (a ++ b) = joinGroups a ++ joinGroups b := by
  simp [joinGroups]

/-- `stripWS` distributes over append. -/
theorem stripWS_append (a b : List Char) :
    stripWS (a ++ b) = stripWS a ++ stripWS b := by
  simp [stripWS]

/-- Dropping leading white space does not change the non-white-space
characters. -/
theorem stripWS_dropWhile (l : List Char) :
    stripWS (l.dropWhile isSpace) = stripWS l := by
  induction l with
  | nil => rfl
  | cons c l ih =>
    by_cases h : isSpace c <;> simp_all [List.dropWhile, stripWS]

/-- `stripWS` commutes with `reverse`. -/
theorem stripWS_reverse (l : List Char) :
    stripWS l.reverse = (stripWS l).reverse := by
  simp [stripWS, List.filter_reverse]

/-- Trimming does not change the non-white-space characters. -/
theorem stripWS_trimSpace (s : List Char) :
    stripWS (trimSpace s) = stripWS s := by
  unfold trimSpace
  rw [stripWS_reverse, stripWS_dropWhile, stripWS_reverse, stripWS_dropWhile,
    List.reverse_reverse]

/-- When a delimiter was found, the returned groups are the scan's groups
plus the optional trailing-remainder group. -/
theorem split_fst_eq (input : List Char)
    (h : (splitStringWithDelimiter input).2 = true) :
    (splitStringWithDelimiter input).1 =
      (splitCore input []).1 ++
        (if (trimSpace (splitCore input []).2).isEmpty then []
         else [⟨trimSpace (splitCore input []).2, []⟩]) := by
  by_cases hemp : (splitCore input []).1.isEmpty
  · simp [splitStringWithDelimiter, hemp] at h
  · by_cases hlast : (trimSpace (splitCore input []).2).isEmpty <;>
      simp [splitStringWithDelimiter, hemp, hlast]

/-- C4, counterexample: on `"a;b"` (one delimiter occurrence) the splitter
returns two groups, the second being the trailing non-terminated
remainder `"b"` tagged with the empty terminator — so it does not return
"one group per occurrence" and it does return a group for the trailing
remainder, contrary to the claim. -/
theorem c4_counterexample :
    countDelims inputAB = 1 ∧
    (splitStringWithDelimiter inputAB).1.length = 2 ∧
    (splitStringWithDelimiter inputAB).1.getLast? = some ⟨['b'], []⟩ := by
  decide

/-- C4, amended: for every input in which `;` or `\G` occurs, the splitter
returns one group per occurrence, each tagged with the `;` or `\G` that
closed it, followed by one extra group carrying the whitespace-trimmed
trailing remainder and the empty terminator exactly when that remainder
is not all white space. -/
theorem c4_split_structure (input : List Char)
    (h : (splitStringWithDelimiter input).2 = true) :
    countDelims input ≠ 0 ∧
    (splitCore input []).1.length = countDelims input ∧
    (∀ g ∈ (splitCore input []).1, g.Delimiter = [';'] ∨ g.Delimiter = ['\\', 'G']) ∧
    (splitStringWithDelimiter input).1 =
      (splitCore input []).1 ++
        (if (trimSpace (splitCore input []).2).isEmpty then []
         else [⟨trimSpace (splitCore input []).2, []⟩]) := by
  refine ⟨?_, splitCore_length input [], splitCore_delims input [], split_fst_eq input h⟩
  by_cases hemp : (splitCore input []).1.isEmpty
  · simp [splitStringWithDelimiter, hemp] at h
  · rw [← splitCore_length input []]
    simpa [List.isEmpty_iff_length_eq_zero] using hemp

/-- C4 witness: the amended statement evaluated at `"a;b"`. -/
theorem c4_witness :
    (splitStringWithDelimiter inputAB).2 = true ∧
    (countDelims inputAB ≠ 0 ∧
     (splitCore inputAB []).1.length = countDelims inputAB ∧
     (∀ g ∈ (splitCore inputAB []).1, g.Delimiter = [';'] ∨ g.Delimiter = ['\\', 'G']) ∧
     (splitStringWithDelimiter inputAB).1 =
       (splitCore inputAB []).1 ++
         (if (trimSpace (splitCore inputAB []).2).isEmpty then []
          else [⟨trimSpace (splitCore inputAB []).2, []⟩])) :=
  ⟨by decide, c4_split_structure inputAB (by decide)⟩

/-- C7, counterexample: on the delimiter-free input `"abc"` the splitter
returns no groups at all, so rejoining the groups yields the empty string,
which does not reconstruct the input even modulo white space. -/
theorem c7_counterexample :
    ¬ stripWS (joinGroups (splitStringWithDelimiter inputABC).1) = stripWS inputABC := by
  decide

/-- C7, amended: for every input in which a delimiter occurs (true of
every flushed buffer), concatenating each returned group's text followed
by its own terminator tag reconstructs the input up to white space. -/
theorem c7_roundtrip (input : List Char)
    (h : (splitStringWithDelimiter input).2 = true) :
    stripWS (joinGroups (splitStringWithDelimiter input).1) = stripWS input := by
  have hjoin := joinGroups_splitCore input []
  simp only [List.reverse_nil, List.nil_append] at hjoin
  have hstrip : stripWS (joinGroups (splitCore input []).1) ++ stripWS (splitCore input []).2
      = stripWS input := by
    rw [← stripWS_append, hjoin]
  rw [split_fst_eq input h]
  by_cases hlast : (trimSpace (splitCore input []).2).isEmpty
  · have h2 : stripWS (splitCore input []).2 = [] := by
      rw [← stripWS_trimSpace]
      simp only [List.isEmpty_iff] at hlast
      rw [hlast]
      rfl
    rw [hlast]
    simp only [if_true, List.append_nil]
    rw [← hstrip, h2, List.append_nil]
  · simp only [hlast, Bool.false_eq_true, if_false]
    rw [joinGroups_append, stripWS_append, ← hstrip]
    congr 1
    simp [joinGroups, stripWS_trimSpace]

/-- C7 witness: the amended statement evaluated at
`"select 1; show x\G  "`. -/
theorem c7_witness :
    (splitStringWithDelimiter inputWit).2 = true ∧
    stripWS (joinGroups (splitStringWithDelimiter inputWit).1) = stripWS inputWit :=
  ⟨by decide, c7_roundtrip inputWit (by decide)⟩

/-! ## The session-termination engine (C1, C9, C10) -/

/-- The events of a round's kill loop are kill events only: no error
event when the loop succeeded, and in every case an error event can only
be the last one. -/
theorem runKills_events (round counter : Nat) (killOk : List Char → Bool)
    (rows : List (List Char)) :
    ((runKills round counter killOk rows).2.2 = true →
      ∀ e ∈ (runKills round counter killOk rows).1, isKErrEv e = false) ∧
    errorsTerminal (runKills round counter killOk rows).1 = true := by
  induction rows generalizing counter with
  | nil => simp [runKills, errorsTerminal]
  | cons r rest ih =>
    by_cases h : killOk r
    · simpa [runKills, h, errorsTerminal, isKErrEv] using ih (counter - 1)
    · simp [runKills, h, errorsTerminal, isKErrEv]

/-- An all-harmless prefix preserves a terminal-errors trace. -/
theorem errorsTerminal_append (xs ys : List KEv)
    (hx : ∀ e ∈ xs, isKErrEv e = false) (hy : errorsTerminal ys = true) :
    errorsTerminal (xs ++ ys) = true := by
  induction xs with
  | nil => simpa using hy
  | cons e xs ih =>
    have he : isKErrEv e = false := hx e (by simp)
    simp only [List.cons_append, errorsTerminal, he, Bool.false_eq_true, if_false]
    exact ih fun e' h' => hx e' (by simp [h'])

/-- The round loop stops at its first database error: an error event is
always the last event of the goroutine's trace. -/
theorem runRounds_errorsTerminal (rounds : List RoundSpec) (round counter : Nat) :
    errorsTerminal (runRounds rounds round counter).1 = true := by
  induction rounds generalizing round counter with
  | nil => simp [runRounds, errorsTerminal]
  | cons rs rest ih =>
    match hd : rs.discovery with
    | .error e => simp [runRounds, hd, errorsTerminal, isKErrEv]
    | .ok rows =>
      by_cases hz : rows.length = 0
      · simpa [runRounds, hd, hz, errorsTerminal, isKErrEv] using ih (round + 1) counter
      · by_cases hok : (runKills round rows.length rs.killOk rows).2.2 = true
        · have hne := (runKills_events round rows.length rs.killOk rows).1 hok
          have hih := ih (round + 1) (runKills round rows.length rs.killOk rows).2.1
          have htail : errorsTerminal
              (KEv.reportedRound round (runKills round rows.length rs.killOk rows).2.1 ::
                (runRounds rest (round + 1)
                  (runKills round rows.length rs.killOk rows).2.1).1) = true := by
            simpa [errorsTerminal, isKErrEv] using hih
          simpa [runRounds, hd, hz, hok, errorsTerminal, isKErrEv] using
            errorsTerminal_append _ _ hne htail
        · have ht := (runKills_events round rows.length rs.killOk rows).2
          simp only [Bool.not_eq_true] at hok
          simpa [runRounds, hd, hz, hok, errorsTerminal, isKErrEv] using ht

/-! ## The comment stripper (C8) -/

/-- `isPrefixOf` exposes an append decomposition. -/
theorem isPrefixOf_ex {p t : List Char} (h : p.isPrefixOf t = true) :
    ∃ r, t = p ++ r := by
  induction p generalizing t with
  | nil => exact ⟨t, rfl⟩
  | cons c p ih =>
    match t with
    | [] => simp [List.isPrefixOf] at h
    | d :: t =>
      simp only [List.isPrefixOf, Bool.and_eq_true, beq_iff_eq] at h
      obtain ⟨r, hr⟩ := ih h.2
      exact ⟨r, by simp [h.1, hr]⟩

/-- A list is a prefix of itself followed by anything. -/
theorem isPrefixOf_self_append (p r : List Char) : p.isPrefixOf (p ++ r) = true := by
  induction p with
  | nil => simp [List.isPrefixOf]
  | cons c p ih => simp [List.isPrefixOf, ih]

/-- A substring occurrence yields an append decomposition. -/
theorem containsSub_ex {pat t : List Char} (h : containsSub pat t = true) :
    ∃ l r, t = l ++ pat ++ r := by
  induction t with
  | nil =>
    refine ⟨[], [], ?_⟩
    simp only [containsSub, indexOf] at h
    by_cases hp : pat.isEmpty
    · simp only [List.isEmpty_iff] at hp
      simp [hp]
    · simp [hp] at h
  | cons c t ih =>
    by_cases hp : pat.isPrefixOf (c :: t) = true
    · obtain ⟨r, hr⟩ := isPrefixOf_ex hp
      exact ⟨[], r, by simpa using hr⟩
    · have h2 : containsSub pat t = true := by
        simp only [containsSub, indexOf, hp, Bool.false_eq_true, if_false] at h
        unfold containsSub
        cases hidx : indexOf pat t with
        | none => rw [hidx] at h; simp at h
        | some i => simp
      obtain ⟨l, r, hr⟩ := ih h2
      exact ⟨c :: l, r, by simp [hr]⟩

/-- `indexOf` finds a pattern sitting at the front. -/
theorem indexOf_self (pat r : List Char) : (indexOf pat (pat ++ r)).isSome = true := by
  match pat with
  | [] =>
    match r with
    | [] => simp [indexOf]
    | c :: r2 => simp [indexOf, List.isPrefixOf]
  | c :: p2 =>
    have hp := isPrefixOf_self_append (c :: p2) r
    simp only [List.cons_append] at hp ⊢
    simp [indexOf, hp]

/-- An append decomposition yields a substring occurrence. -/
theorem containsSub_of_parts (pat l r : List Char) :
    containsSub pat (l ++ pat ++ r) = true := by
  induction l with
  | nil =>
    simp only [List.nil_append]
    exact indexOf_self pat r
  | cons c l ih =>
    unfold containsSub indexOf
    simp only [List.cons_append]
    split
    · rfl
    · unfold containsSub at ih
      cases hidx : indexOf pat (l ++ pat ++ r) with
      | none => rw [hidx] at ih; simp at ih
      | some i => rfl

/-- Substring absence passes to every infix. -/
theorem containsSub_infix_false {pat s t l r : List Char}
    (h : containsSub pat s = false) (hs : s = l ++ t ++ r) :
    containsSub pat t = false := by
  by_contra hc
  simp only [Bool.not_eq_false] at hc
  obtain ⟨l2, r2, ht⟩ := containsSub_ex hc
  have : containsSub pat s = true := by
    rw [hs, ht]
    have : l ++ (l2 ++ pat ++ r2) ++ r = (l ++ l2) ++ pat ++ (r2 ++ r) := by
      simp [List.append_assoc]
    rw [this]
    exact containsSub_of_parts pat (l ++ l2) (r2 ++ r)
  simp [this] at h

/-- The head of a `dropWhile` result fails the predicate. -/
theorem dropWhile_head_false {p : Char → Bool} {l : List Char} {c : Char}
    {l2 : List Char} (h : l.dropWhile p = c :: l2) : p c = false := by
  induction l with
  | nil => simp [List.dropWhile] at h
  | cons d l ih =>
    by_cases hd : p d
    · exact ih (by simpa [List.dropWhile, hd] using h)
    · simp only [List.dropWhile, hd, Bool.false_eq_true, if_false] at h
      cases h
      simpa using hd

/-- `dropWhile` is idempotent. -/
theorem dropWhile_dropWhile (p : Char → Bool) (l : List Char) :
    (l.dropWhile p).dropWhile p = l.dropWhile p := by
  match hl : l.dropWhile p with
  | [] => simp [List.dropWhile]
  | c :: l2 =>
    have := dropWhile_head_false hl
    simp [List.dropWhile, this]

/-- The trimmed string with its trailing white space appended back is the
left-trimmed string. -/
theorem trimSpace_append_back (s : List Char) :
    trimSpace s ++ ((s.dropWhile isSpace).reverse.takeWhile isSpace).reverse
      = s.dropWhile isSpace := by
  have hsplit := List.takeWhile_append_dropWhile isSpace (s.dropWhile isSpace).reverse
  have h := congrArg List.reverse hsplit
  rw [List.reverse_append, List.reverse_reverse] at h
  exact h

/-- The trimmed string is an infix of the original: the dropped white
space can be appended back. -/
theorem trimSpace_infix (s : List Char) :
    ∃ l r, s = l ++ trimSpace s ++ r := by
  refine ⟨s.takeWhile isSpace,
    ((s.dropWhile isSpace).reverse.takeWhile isSpace).reverse, ?_⟩
  rw [List.append_assoc, trimSpace_append_back, List.takeWhile_append_dropWhile]

/-- Trimming leaves no leading white space. -/
theorem dropWhile_trimSpace (s : List Char) :
    (trimSpace s).dropWhile isSpace = trimSpace s := by
  match ht : trimSpace s with
  | [] => simp [List.dropWhile]
  | c :: t2 =>
    have hu := trimSpace_append_back s
    rw [ht] at hu
    have hs2 : s.dropWhile isSpace
        = c :: (t2 ++ ((s.dropWhile isSpace).reverse.takeWhile isSpace).reverse) := by
      simpa using hu.symm
    have hc := dropWhile_head_false hs2
    simp [List.dropWhile, hc]

/-- Trimming is idempotent. -/
theorem trimSpace_idem (s : List Char) : trimSpace (trimSpace s) = trimSpace s := by
  show (((trimSpace s).dropWhile isSpace).reverse.dropWhile isSpace).reverse = trimSpace s
  rw [dropWhile_trimSpace]
  conv_lhs =>
    rw [show trimSpace s
      = ((s.dropWhile isSpace).reverse.dropWhile isSpace).reverse from rfl]
  rw [List.reverse_reverse, dropWhile_dropWhile]
  rfl

/-- A newline-free string splits into the single line holding it. -/
theorem splitOnNl_newlineFree {s : List Char} (h : newlineFree s = true) :
    splitOnNl s = [s] := by
  induction s with
  | nil => rfl
  | cons c s ih =>
    simp only [newlineFree, List.all_cons, Bool.and_eq_true, decide_eq_true_eq] at h
    have := ih (by simpa [newlineFree] using h.2)
    simp [splitOnNl, h.1, this]

/-- On a line free of `--` and `/*` the per-line body keeps the line and
opens no block comment. -/
theorem skipRest_commentFree {line : List Char} (h : commentFree line = true) :
    skipRest line = (line, false) := by
  simp only [commentFree, Bool.and_eq_true, Bool.not_eq_true'] at h
  have h1 : indexOf dashDash line = none := by
    have hx := h.1
    unfold containsSub at hx
    cases hidx : indexOf dashDash line with
    | none => rfl
    | some i => rw [hidx] at hx; simp at hx
  have h2 : indexOf blockOpen line = none := by
    have hx := h.2
    unfold containsSub at hx
    cases hidx : indexOf blockOpen line with
    | none => rfl
    | some i => rw [hidx] at hx; simp at hx
  simp [skipRest, h1, h2]

/-- Substring absence passes to the trimmed string. -/
theorem commentFree_trimSpace {s : List Char} (h : commentFree s = true) :
    commentFree (trimSpace s) = true := by
  obtain ⟨l, r, hs⟩ := trimSpace_infix s
  simp only [commentFree, Bool.and_eq_true, Bool.not_eq_true'] at h ⊢
  exact ⟨containsSub_infix_false h.1 hs, containsSub_infix_false h.2 hs⟩

/-- Newline-freeness passes to the trimmed string. -/
theorem newlineFree_trimSpace {s : List Char} (h : newlineFree s = true) :
    newlineFree (trimSpace s) = true := by
  obtain ⟨l, r, hs⟩ := trimSpace_infix s
  rw [hs] at h
  simp only [newlineFree, List.all_append, Bool.and_eq_true] at h
  exact h.1.2

/-- On comment-free newline-free input, `skipComments` is exactly
`trimSpace`. -/
theorem skipComments_eq_trimSpace {s : List Char}
    (hc : commentFree s = true) (hn : newlineFree s = true) :
    skipComments s = trimSpace s := by
  unfold skipComments
  rw [splitOnNl_newlineFree hn]
  show trimSpace (skipCore false [s]) = trimSpace s
  have hline : skipLine false s = (trimSpace s, false) := by
    unfold skipLine
    simpa using skipRest_commentFree (commentFree_trimSpace hc)
  simp only [skipCore, hline]
  simpa using trimSpace_idem s

/-- C8, counterexample: `"a-\n-b"` contains no `--` comment and no block
comment, yet `skipComments` glues its two trimmed lines into `"a--b"`,
which differs from the input; re-stripping that output then cuts at the
newly formed `--`, so the stripper is not even idempotent on this
comment-free statement. -/
theorem c8_counterexample :
    commentFree cexC8 = true ∧
    ¬ skipComments cexC8 = cexC8 ∧
    ¬ skipComments (skipComments cexC8) = skipComments cexC8 := by
  decide

/-- C8, amended: for every newline-free statement containing no comments,
the comment stripper returns the statement trimmed of surrounding white
space — in particular it leaves already-trimmed such statements unchanged
— and applying it to its own output returns that output. -/
theorem c8_idempotent (s : List Char)
    (hc : commentFree s = true) (hn : newlineFree s = true) :
    skipComments s = trimSpace s ∧
    skipComments (skipComments s) = skipComments s := by
  have h1 := skipComments_eq_trimSpace hc hn
  refine ⟨h1, ?_⟩
  rw [h1, skipComments_eq_trimSpace (commentFree_trimSpace hc) (newlineFree_trimSpace hn),
    trimSpace_idem]

/-- C8 witness: the amended statement at `" select 1"`. -/
theorem c8_witness :
    commentFree wsC8 = true ∧ newlineFree wsC8 = true ∧
    (skipComments wsC8 = trimSpace wsC8 ∧
     skipComments (skipComments wsC8) = skipComments wsC8) :=
  ⟨by decide, by decide, c8_idempotent wsC8 (by decide) (by decide)⟩

/-! ## The dispatch loop (C2, C3, C5, C6) -/

/-- Prepending events to a dispatch result prepends them to its event
list. -/
theorem GroupsRes.events_prepend (pre : List Ev) (r : GroupsRes) :
    (r.prepend pre).events = pre ++ r.events := by
  cases r <;> rfl

/-- C2: the console does crash on a statement group whose text is
non-empty but strips to nothing.  Typing `select 1;/* x */;` with a
cluster active flushes a buffer whose second group is the comment-only
text `/* x */`; comment stripping leaves the empty string, `Fields`
returns the empty slice, and `queryCmd[0]` panics with an
index-out-of-range — the loop iteration ends in a panic instead of being
handled. -/
theorem c2_comment_group_panics :
    grpC2 ≠ [] ∧
    skipComments grpC2 = [] ∧
    (splitStringWithDelimiter lineC2).1 = [⟨stmtS1, [';']⟩, ⟨grpC2, [';']⟩] ∧
    (handleLine envA stActive lineC2).isPanicked = true := by
  refine ⟨by decide, by decide, by decide, ?_⟩
  decide

/-- C3, counterexample: in the flush `select 1;select 2;` the query for
`select 1` fails, yet the trace shows `select 2` still being sent — the
loop body ends the failing group with `continue`, so an execution failure
does not stop dispatch of the remaining groups. -/
theorem c3_counterexample :
    envC3.queryOk stmtS1 = false ∧
    (processGroups envC3 stActive [grpA, grpB]).events
      = [Ev.querySql stmtS1, Ev.printedQueryError stmtS1, Ev.querySql stmtS2] ∧
    stopsAtFirstFailure (processGroups envC3 stActive [grpA, grpB]).events = false := by
  decide

/-- C3, amended: rejecting a group for a disallowed verb continues
dispatch of the later groups unchanged, and an execution/connection
failure on a group also continues dispatch of the remaining groups of the
flush, clearing the buffer as it does so. -/
theorem c3_failure_continues (env : Env) (st : LoopState) (g : Group)
    (rest : List Group) (v : List Char) (args : List (List Char))
    (hval : ¬ g.Value = [])
    (hfields : fields (skipComments g.Value) = v :: args) :
    (equalFold v useCmd = false →
      (equalFold v selectCmd || equalFold v showCmd || equalFold v explainCmd) = false →
      processGroups env st (g :: rest)
        = (processGroups env st rest).prepend [Ev.rejectedVerb v]) ∧
    ((equalFold v selectCmd || equalFold v showCmd || equalFold v explainCmd) = true →
      env.queryOk g.Value = false →
      processGroups env st (g :: rest)
        = (processGroups env { st with inputBuffer := [] } rest).prepend
            [Ev.querySql g.Value, Ev.printedQueryError g.Value]) := by
  constructor
  · intro h1 h2
    simp [processGroups, hval, hfields, h1, h2]
  · intro h1 h2
    have huse : equalFold v useCmd = false := by
      cases hu : equalFold v useCmd
      · rfl
      · exfalso
        have h3 : v.map asciiUpper = useCmd.map asciiUpper := by
          simpa [equalFold] using hu
        rcases Bool.or_eq_true_iff.mp h1 with h4 | h4
        · rcases Bool.or_eq_true_iff.mp h4 with h5 | h5
          · have : v.map asciiUpper = selectCmd.map asciiUpper := by
              simpa [equalFold] using h5
            rw [h3] at this
            simp [useCmd, selectCmd, asciiUpper] at this
          · have : v.map asciiUpper = showCmd.map asciiUpper := by
              simpa [equalFold] using h5
            rw [h3] at this
            simp [useCmd, showCmd, asciiUpper] at this
        · have : v.map asciiUpper = explainCmd.map asciiUpper := by
            simpa [equalFold] using h4
          rw [h3] at this
          simp [useCmd, explainCmd, asciiUpper] at this
    simp [processGroups, hval, hfields, huse, h1, h2]

/-- C3 witness: the amended statement at the failing group `select 1`
followed by `select 2`; its failure conjunct's premises hold, so dispatch
provably continues with `select 2` after the failure. -/
theorem c3_witness :
    ¬ grpA.Value = [] ∧
    fields (skipComments grpA.Value) = "select".data :: ["1".data] ∧
    ((equalFold ("select".data) selectCmd || equalFold ("select".data) showCmd
        || equalFold ("select".data) explainCmd) = true ∧
     envC3.queryOk grpA.Value = false) ∧
    processGroups envC3 stActive (grpA :: [grpB])
      = (processGroups envC3 { stActive with inputBuffer := [] } [grpB]).prepend
          [Ev.querySql grpA.Value, Ev.printedQueryError grpA.Value] := by
  refine ⟨by decide, by decide, ⟨by decide, by decide⟩, ?_⟩
  exact (c3_failure_continues envC3 stActive grpA [grpB]
    ("select".data) ["1".data] (by decide) (by decide)).2 (by decide) (by decide)

/-- Group dispatch never calls the history-append operation: every
history write of a flush happens before the group loop. -/
theorem processGroups_no_history (env : Env) (st : LoopState) (gs : List Group) :
    (processGroups env st gs).events.any isSavedEv = false := by
  induction gs generalizing st with
  | nil => rfl
  | cons g rest ih =>
    unfold processGroups
    by_cases hval : g.Value = []
    · simp [hval, GroupsRes.events_prepend, isSavedEv, ih]
    · cases hf : fields (skipComments g.Value) with
      | nil => simp [hval, hf, GroupsRes.events]
      | cons v args =>
        by_cases huse : equalFold v useCmd = true
        · by_cases hex : env.execOk g.Value = true
          · cases args with
            | nil => simp [hval, hf, huse, hex, GroupsRes.events, isSavedEv]
            | cons a args2 =>
              simp [hval, hf, huse, hex, GroupsRes.events_prepend, isSavedEv, ih]
          · simp only [Bool.not_eq_true] at hex
            simp [hval, hf, huse, hex, GroupsRes.events_prepend, isSavedEv, ih]
        · simp only [Bool.not_eq_true] at huse
          by_cases hsel : (equalFold v selectCmd || equalFold v showCmd
              || equalFold v explainCmd) = true
          · by_cases hq : env.queryOk g.Value = true
            · by_cases hfmt : env.fmtOk = true
              · simp [hval, hf, huse, hsel, hq, hfmt, GroupsRes.events_prepend, isSavedEv, ih]
              · simp only [Bool.not_eq_true] at hfmt
                simp [hval, hf, huse, hsel, hq, hfmt, GroupsRes.events_prepend, isSavedEv, ih]
            · simp only [Bool.not_eq_true] at hq
              simp [hval, hf, huse, hsel, hq, GroupsRes.events_prepend, isSavedEv, ih]
          · simp only [Bool.not_eq_true] at hsel
            simp [hval, hf, huse, hsel, GroupsRes.events_prepend, isSavedEv, ih]

/-- C5, counterexample: the line `select 1;` typed with no active cluster
completes a buffer (it ends in `;`), but the iteration only prints the
empty-cluster error and discards the buffer — the history-append
operation is never called, although the claim asserts it is called for
completed buffers flushed while no cluster is active. -/
theorem c5_counterexample :
    hasSuffix semiStr (trimSpace lineC5) = true ∧
    handleLine envA stNoCluster lineC5
      = Outcome.next stNoCluster [Ev.printedNoCluster] ∧
    historyCalled (handleLine envA stNoCluster lineC5) = false := by
  decide

/-- C5, amended: the history-append operation is called after an accepted
line exactly when the line is a successful `clear`, a `help`, a command
line (parse success), or a line completing a buffer while a cluster is
active; in particular a completed buffer flushed while no cluster is
active is discarded with no history append, and empty lines, `exit`,
`quit`, command-parse failures and still-incomplete buffers append
nothing. -/
theorem c5_history_characterisation (env : Env) (st : LoopState) (raw : List Char) :
    historyCalled (handleLine env st raw) = savesHistory env st raw := by
  unfold handleLine savesHistory
  by_cases h0 : (trimSpace raw).isEmpty
  · simp [h0, historyCalled, Outcome.events]
  · simp only [h0, Bool.false_eq_true, if_false]
    by_cases h1 : (trimSpace raw = exitWord || trimSpace raw = quitWord) = true
    · simp [h1, historyCalled, Outcome.events]
    · simp only [Bool.not_eq_true] at h1
      simp only [h1, Bool.false_eq_true, if_false]
      by_cases h2 : trimSpace raw = clearWord
      · by_cases hclear : env.clearOk = true
        · by_cases hsave : env.saveOk clearWord = true <;>
            simp [h2, hclear, hsave, historyCalled, Outcome.events, isSavedEv]
        · simp only [Bool.not_eq_true] at hclear
          simp [h2, hclear, historyCalled, Outcome.events, isSavedEv]
      · simp only [h2, if_false]
        by_cases h3 : trimSpace raw = helpWord
        · by_cases hsave : env.saveOk helpWord = true <;>
            simp [h3, hsave, historyCalled, Outcome.events, isSavedEv]
        · simp only [h3, if_false]
          cases hf : fields (trimSpace raw) with
          | nil => simp [historyCalled, Outcome.events]
          | cons tok toks =>
            by_cases hcmd : ((isContain tok env.cmds && st.inputBuffer.isEmpty)
                || (!isContain tok allowedQueryCommands && st.inputBuffer.isEmpty)) = true
            · by_cases hparse : env.parseOk (trimSpace raw) = true
              · by_cases hsave : env.saveOk (trimSpace raw) = true <;>
                  simp [hcmd, hparse, hsave, historyCalled, Outcome.events, isSavedEv]
              · simp only [Bool.not_eq_true] at hparse
                simp [hcmd, hparse, historyCalled, Outcome.events, isSavedEv]
            · simp only [Bool.not_eq_true] at hcmd
              simp only [hcmd, Bool.false_eq_true, if_false]
              by_cases hterm : (hasSuffix semiStr (trimSpace raw)
                  || hasSuffix slashGStr (trimSpace raw)) = true
              · simp only [hterm, if_true]
                unfold dispatchBuffer
                by_cases hclu : st.activeCluster.isEmpty
                · simp [hclu, historyCalled, Outcome.events, isSavedEv]
                · simp only [hclu, Bool.false_eq_true, if_false]
                  by_cases hsave : env.saveOk
                      (joinWith [' '] (st.inputBuffer ++ [trimSpace raw])) = true
                  · simp only [hsave, if_true]
                    by_cases hfound : (splitStringWithDelimiter
                        (joinWith [' '] (st.inputBuffer ++ [trimSpace raw]))).2 = false
                    · simp [hfound, hclu, historyCalled, Outcome.events, isSavedEv]
                    · simp only [hfound, Bool.false_eq_true, if_false]
                      by_cases hconn : (st.connInit || env.getDbOk) = true
                      · simp only [hconn, if_true]
                        cases hpg : processGroups env
                            { st with
                              inputBuffer := st.inputBuffer ++ [trimSpace raw],
                              connInit := true }
                            (splitStringWithDelimiter
                              (joinWith [' '] (st.inputBuffer ++ [trimSpace raw]))).1 with
                        | done st2 evs =>
                          have := processGroups_no_history env
                            { st with
                              inputBuffer := st.inputBuffer ++ [trimSpace raw],
                              connInit := true }
                            (splitStringWithDelimiter
                              (joinWith [' '] (st.inputBuffer ++ [trimSpace raw]))).1
                          rw [hpg] at this
                          simp [hclu, historyCalled, Outcome.events, isSavedEv]
                        | panicked evs =>
                          simp [hclu, historyCalled, Outcome.events, isSavedEv]
                      · simp only [Bool.not_eq_true] at hconn
                        simp [hconn, hclu, historyCalled, Outcome.events, isSavedEv]
                  · simp only [Bool.not_eq_true] at hsave
                    simp [hsave, hclu, historyCalled, Outcome.events, isSavedEv]
              · simp only [Bool.not_eq_true] at hterm
                simp [hterm, historyCalled, Outcome.events]

/-- C6: a line typed while the buffer is empty whose first token is a
known command name, or is no allow-listed verb, is handled as a command:
nothing of it reaches the connection, it is never appended to the buffer,
and — except for the specially handled `exit`/`quit`/`clear`/`help`
lines — a successfully parsed line is executed through the command tree
and written to history. -/
theorem c6_command_priority (env : Env) (st : LoopState) (raw tok : List Char)
    (toks : List (List Char))
    (hbuf : st.inputBuffer = [])
    (htok : fields (trimSpace raw) = tok :: toks)
    (hcmd : isContain tok env.cmds = true ∨ isContain tok allowedQueryCommands = false) :
    noConnTraffic (handleLine env st raw) = true ∧
    (∀ st2 evs, handleLine env st raw = Outcome.next st2 evs → st2.inputBuffer = []) ∧
    (¬ trimSpace raw = exitWord → ¬ trimSpace raw = quitWord →
      ¬ trimSpace raw = clearWord → ¬ trimSpace raw = helpWord →
      env.parseOk (trimSpace raw) = true →
      (handleLine env st raw).events
        = [Ev.ranCommand (trimSpace raw), Ev.savedHistory (trimSpace raw)]) := by
  have hbuf2 : st.inputBuffer.isEmpty = true := by simp [hbuf]
  have hcond : ((isContain tok env.cmds && st.inputBuffer.isEmpty)
      || (!isContain tok allowedQueryCommands && st.inputBuffer.isEmpty)) = true := by
    rcases hcmd with h | h <;> simp [h, hbuf2]
  have h0 : (trimSpace raw).isEmpty = false := by
    cases he : (trimSpace raw).isEmpty
    · rfl
    · exfalso
      have hempty : trimSpace raw = [] := by simpa [List.isEmpty_iff] using he
      rw [hempty] at htok
      simp [fields, fieldsAux] at htok
  unfold handleLine
  simp only [h0, Bool.false_eq_true, if_false]
  by_cases h1 : (trimSpace raw = exitWord || trimSpace raw = quitWord) = true
  · refine ⟨?_, ?_, ?_⟩
    · simp [h1, noConnTraffic, Outcome.events]
    · intro st2 evs heq
      simp [h1] at heq
    · intro hx1 hx2 hx3 hx4 hx5
      rcases Bool.or_eq_true_iff.mp h1 with h | h
      · exact absurd (by simpa using h) hx1
      · exact absurd (by simpa using h) hx2
  · simp only [Bool.not_eq_true] at h1
    simp only [h1, Bool.false_eq_true, if_false]
    by_cases h2 : trimSpace raw = clearWord
    · refine ⟨?_, ?_, ?_⟩
      · by_cases hclear : env.clearOk = true
        · by_cases hsave : env.saveOk clearWord = true <;>
            simp [h2, hclear, hsave, noConnTraffic, Outcome.events, isConnEv]
        · simp only [Bool.not_eq_true] at hclear
          simp [h2, hclear, noConnTraffic, Outcome.events]
      · intro st2 evs heq
        by_cases hclear : env.clearOk = true
        · by_cases hsave : env.saveOk clearWord = true
          · simp only [h2, if_true, hclear, hsave] at heq
            obtain ⟨hst, -⟩ := Outcome.next.inj heq
            rw [← hst, hbuf]
          · simp [h2, hclear, hsave] at heq
        · simp only [Bool.not_eq_true] at hclear
          simp [h2, hclear] at heq
      · intro hx1 hx2 hx3 hx4 hx5
        exact absurd h2 hx3
    · simp only [h2, if_false]
      by_cases h3 : trimSpace raw = helpWord
      · refine ⟨?_, ?_, ?_⟩
        · by_cases hsave : env.saveOk helpWord = true <;>
            simp [h3, hsave, noConnTraffic, Outcome.events, isConnEv]
        · intro st2 evs heq
          by_cases hsave : env.saveOk helpWord = true
          · simp only [h3, if_true, hsave] at heq
            obtain ⟨hst, -⟩ := Outcome.next.inj heq
            rw [← hst, hbuf]
          · simp [h3, hsave] at heq
        · intro hx1 hx2 hx3 hx4 hx5
          exact absurd h3 hx4
      · simp only [h3, if_false, htok, hcond, if_true]
        refine ⟨?_, ?_, ?_⟩
        · by_cases hparse : env.parseOk (trimSpace raw) = true
          · by_cases hsave : env.saveOk (trimSpace raw) = true <;>
              simp [hparse, hsave, noConnTraffic, Outcome.events, isConnEv]
          · simp only [Bool.not_eq_true] at hparse
            simp [hparse, noConnTraffic, Outcome.events]
        · intro st2 evs heq
          by_cases hparse : env.parseOk (trimSpace raw) = true
          · by_cases hsave : env.saveOk (trimSpace raw) = true
            · simp only [hparse, if_true, hsave] at heq
              obtain ⟨hst, -⟩ := Outcome.next.inj heq
              rw [← hst, hbuf]
            · simp [hparse, hsave] at heq
          · simp only [Bool.not_eq_true] at hparse
            simp [hparse] at heq
        · intro hx1 hx2 hx3 hx4 hparse
          by_cases hsave : env.saveOk (trimSpace raw) = true <;>
            simp [hparse, hsave, Outcome.events]

/-- C6 witness: the command-priority statement at the line `kill all`
(first token a known command name) typed in the logged-out idle state. -/
theorem c6_witness :
    stNoCluster.inputBuffer = [] ∧
    fields (trimSpace lineC6) = "kill".data :: ["all".data] ∧
    isContain ("kill".data) envA.cmds = true ∧
    (noConnTraffic (handleLine envA stNoCluster lineC6) = true ∧
     (∀ st2 evs, handleLine envA stNoCluster lineC6 = Outcome.next st2 evs →
        st2.inputBuffer = []) ∧
     (¬ trimSpace lineC6 = exitWord → ¬ trimSpace lineC6 = quitWord →
       ¬ trimSpace lineC6 = clearWord → ¬ trimSpace lineC6 = helpWord →
       envA.parseOk (trimSpace lineC6) = true →
       (handleLine envA stNoCluster lineC6).events
         = [Ev.ranCommand (trimSpace lineC6), Ev.savedHistory (trimSpace lineC6)])) :=
  ⟨rfl, by decide, by decide,
    c6_command_priority envA stNoCluster lineC6 ("kill".data) ["all".data] rfl
      (by decide) (Or.inl (by decide))⟩

/-- C1, counterexample: with the capability precondition satisfied, a
failing round-0 discovery query (digest engine) and a failing kill
statement (username engine) are recorded in the trace, yet both
invocations return `ok ()` — the Go functions log the error, cancel the
context, and `return nil`, so no non-nil terminal error reaches the
caller. -/
theorem c1_counterexample :
    (GenerateKillSessionSqlBySqlDigest scrDiscFail [['a']]).1 = Except.ok () ∧
    (GenerateKillSessionSqlBySqlDigest scrDiscFail [['a']]).2 = [KEv.discoveryFailed 0] ∧
    (GenerateKillSessionSqlByUsername scrKillFail [['u']]).1 = Except.ok () ∧
    (GenerateKillSessionSqlByUsername scrKillFail [['u']]).2.getLast?
      = some (KEv.killFailed 0 instRow2) :=
  ⟨rfl, rfl, rfl, rfl⟩

/-- C1, amended: when the capability precondition passes, a discovery or
kill failure stops the engine — the error event is the last event of the
invocation — but the invocation's result is `ok ()` (nil): the error is
logged and cancels the loop, and is not surfaced as the terminal
error. -/
theorem c1_errors_cancel_but_nil (s : Script) (digests users rows : List (List Char))
    (hdb : s.getDbOk = true) (hcap : s.capability = .ok rows) (hne : rows ≠ []) :
    (GenerateKillSessionSqlBySqlDigest s digests).1 = Except.ok () ∧
    (GenerateKillSessionSqlByUsername s users).1 = Except.ok () ∧
    errorsTerminal (GenerateKillSessionSqlBySqlDigest s digests).2 = true ∧
    errorsTerminal (GenerateKillSessionSqlByUsername s users).2 = true := by
  have hlen : rows.length ≠ 0 := by simpa using hne
  refine ⟨?_, ?_, ?_, ?_⟩ <;>
    simp [GenerateKillSessionSqlBySqlDigest, GenerateKillSessionSqlByUsername,
      runKillEngine, hdb, hcap, hlen, runRounds_errorsTerminal]

/-- C1 witness: the amended statement at the discovery-failure script. -/
theorem c1_witness :
    scrDiscFail.getDbOk = true ∧ scrDiscFail.capability = .ok [['x']] ∧
    ((GenerateKillSessionSqlBySqlDigest scrDiscFail [['a']]).1 = Except.ok () ∧
     (GenerateKillSessionSqlByUsername scrDiscFail [['a']]).1 = Except.ok () ∧
     errorsTerminal (GenerateKillSessionSqlBySqlDigest scrDiscFail [['a']]).2 = true ∧
     errorsTerminal (GenerateKillSessionSqlByUsername scrDiscFail [['a']]).2 = true) :=
  ⟨by decide, rfl,
    c1_errors_cancel_but_nil scrDiscFail [['a']] [['a']] [['x']] (by decide) rfl
      (by decide)⟩

/-- C9: if the `enable-global-kill` capability query returns zero rows,
both engines return the precondition error before any round runs: the
trace is empty, so no discovery query and no kill statement was ever
issued. -/
theorem c9_capability_gate (s : Script) (digests users : List (List Char))
    (hdb : s.getDbOk = true) (hcap : s.capability = .ok []) :
    GenerateKillSessionSqlBySqlDigest s digests = (Except.error DbErr.capabilityNotMet, []) ∧
    GenerateKillSessionSqlByUsername s users = (Except.error DbErr.capabilityNotMet, []) := by
  constructor <;>
    simp [GenerateKillSessionSqlBySqlDigest, GenerateKillSessionSqlByUsername,
      runKillEngine, hdb, hcap]

/-- C9 witness: the capability gate at the zero-row script. -/
theorem c9_witness :
    scrNoCap.getDbOk = true ∧ scrNoCap.capability = .ok [] ∧
    (GenerateKillSessionSqlBySqlDigest scrNoCap [['a']]
        = (Except.error DbErr.capabilityNotMet, []) ∧
     GenerateKillSessionSqlByUsername scrNoCap [['u']]
        = (Except.error DbErr.capabilityNotMet, [])) :=
  ⟨by decide, rfl, c9_capability_gate scrNoCap [['a']] [['u']] (by decide) rfl⟩

/-- A round's kill loop: the final counter is the incoming counter minus
the number of successful kills (the kills preceding the first failure),
the success flag says every kill succeeded, and the loop logs no
zero-discovery report. -/
theorem runKills_spec (round : Nat) (killOk : List Char → Bool)
    (rows : List (List Char)) (counter : Nat) :
    (runKills round counter killOk rows).2.1
        = counter - (rows.takeWhile killOk).length ∧
    ((runKills round counter killOk rows).2.2 = true
        ↔ (rows.takeWhile killOk).length = rows.length) ∧
    reportsOfZeroRounds (runKills round counter killOk rows).1 = [] := by
  induction rows generalizing counter with
  | nil => simp [runKills, reportsOfZeroRounds]
  | cons r rest ih =>
    by_cases h : killOk r
    · have := ih (counter - 1)
      simp only [runKills, h, if_true, List.takeWhile_cons, List.length_cons]
      refine ⟨?_, ?_, ?_⟩
      · rw [this.1, Nat.sub_sub]
        simp [Nat.add_comm]
      · rw [this.2.1]
        omega
      · simpa [reportsOfZeroRounds] using this.2.2
    · have hlen : rest.length + 1 ≠ 0 := by omega
      simp [runKills, h, List.takeWhile_cons, reportsOfZeroRounds, hlen, Nat.succ_ne_zero]

/-- The counter values logged by zero-discovery rounds are exactly the
residual values: the counter enters as `counter`, a zero round reports it
unchanged, and a non-empty round replaces it by its discovered count
minus its successful kills. -/
theorem runRounds_reports (rounds : List RoundSpec) (round counter : Nat) :
    reportsOfZeroRounds (runRounds rounds round counter).1
      = residualReports counter rounds := by
  induction rounds generalizing round counter with
  | nil => simp [runRounds, residualReports, reportsOfZeroRounds]
  | cons rs rest ih =>
    match hd : rs.discovery with
    | .error e => simp [runRounds, residualReports, hd, reportsOfZeroRounds]
    | .ok rows =>
      by_cases hz : rows.length = 0
      · simpa [runRounds, residualReports, hd, hz, reportsOfZeroRounds] using
          ih (round + 1) counter
      · have hk := runKills_spec round rs.killOk rows rows.length
        by_cases hok : (runKills round rows.length rs.killOk rows).2.2 = true
        · have hsucc : (rows.takeWhile rs.killOk).length = rows.length := hk.2.1.mp hok
          have hcnt : (runKills round rows.length rs.killOk rows).2.1
              = rows.length - (rows.takeWhile rs.killOk).length := hk.1
          have hih := ih (round + 1) 0
          simp only [runRounds, residualReports, hd, hz, if_false, hok, if_true,
            reportsOfZeroRounds, List.filterMap_cons, List.filterMap_append, hsucc]
          simp only [reportsOfZeroRounds, List.filterMap_append] at hih hk
          rw [hcnt, hsucc, Nat.sub_self]
          simp [hk.2.2, hih]
        · have hsucc : ¬ (rows.takeWhile rs.killOk).length = rows.length := by
            intro hc
            exact hok (hk.2.1.mpr hc)
          simp only [Bool.not_eq_true] at hok
          simp only [reportsOfZeroRounds] at hk
          simp [runRounds, residualReports, hd, hz, hok, hsucc, reportsOfZeroRounds, hk.2.2]

/-- C10: with the capability precondition satisfied, in both engines the
shared counter is written only by rounds that discover sessions; a
zero-discovery round reports the residual left by the last non-empty
round (the discovered count minus its successful kills), initially 0. -/
theorem c10_counter_residual (s : Script) (digests users rows : List (List Char))
    (hdb : s.getDbOk = true) (hcap : s.capability = .ok rows) (hne : rows ≠ []) :
    reportsOfZeroRounds (GenerateKillSessionSqlBySqlDigest s digests).2
        = residualReports 0 s.rounds ∧
    reportsOfZeroRounds (GenerateKillSessionSqlByUsername s users).2
        = residualReports 0 s.rounds := by
  have hlen : rows.length ≠ 0 := by simpa using hne
  constructor <;>
    simp [GenerateKillSessionSqlBySqlDigest, GenerateKillSessionSqlByUsername,
      runKillEngine, hdb, hcap, hlen, runRounds_reports]

/-- C10 witness: the residual characterisation at a script with one
all-successful round of two sessions followed by two empty rounds — both
empty rounds report the residual 0 left by round 0. -/
theorem c10_witness :
    scrResid.getDbOk = true ∧ scrResid.capability = .ok [['x']] ∧
    (reportsOfZeroRounds (GenerateKillSessionSqlBySqlDigest scrResid [['a']]).2
        = residualReports 0 scrResid.rounds ∧
     reportsOfZeroRounds (GenerateKillSessionSqlByUsername scrResid [['u']]).2
        = residualReports 0 scrResid.rounds) :=
  ⟨by decide, rfl,
    c10_counter_residual scrResid [['a']] [['u']] [['x']] (by decide) rfl (by decide)⟩

end Tidba
